import Mathlib

/-!
Verification development for the TykTechnologies/opentelemetry span-buffering
and export pipeline.  The definitions below are shallow embeddings of the Go
code in `src/trace/mpsc.go`, `src/trace/sprocessor/mpsc.go` and
`src/trace/sprocessor/tyk_processor.go`, under sequential (single-consumer,
no interleaving) execution semantics.  Machine `int32` arithmetic is modelled
on `Int` with explicit wraparound; Go runtime faults (nil-pointer
dereference, close of a closed channel) are modelled with `Except`.
-/

namespace TykOtel

/-- Span records are opaque values; we identify them by a natural number. -/
abbrev Span := Nat

/-- Go runtime faults that abort the current goroutine. -/
inductive GoPanic where
  /-- invalid memory address or nil pointer dereference (SIGSEGV). -/
  | nilDeref : GoPanic
  /-- panic from `close` of an already-closed channel. -/
  | closeOfClosedChannel : GoPanic
deriving DecidableEq, Repr

/-! ## Heap-level model of `spanQueue` (src/trace/mpsc.go lines 13-47)

`spanQueueNode` is two machine words: the `span` interface value followed by
the `next` pointer.  The enqueue code computes its CAS target as
`(*unsafe.Pointer)(unsafe.Pointer(tail.next))` — the *value* of `tail.next`
reinterpreted as an address — so we must model node addresses explicitly.
`spanWord` is the first machine word stored at a node's address (the word the
mis-aimed CAS reads and writes); `next` is the node's next pointer.  Both are
`none` (zero) for the dummy node created by `newSpanQueue`. -/

/-- One allocated `spanQueueNode`: its first machine word and its `next` field. -/
structure NodeH where
  spanWord : Option Nat
  next : Option Nat
deriving DecidableEq, Repr

/-- The heap-level `spanQueue`: an address-indexed heap of nodes plus the
`head` and `tail` atomic pointers and a bump allocator for fresh addresses. -/
structure SpanQueueH where
  heap : List (Nat × NodeH)
  head : Nat
  tail : Nat
  nextAlloc : Nat
deriving DecidableEq, Repr

/-- Read the node stored at address `a`. -/
def heapGet (h : List (Nat × NodeH)) (a : Nat) : Option NodeH :=
  (h.find? (fun p => p.1 == a)).map (fun p => p.2)

/-- Overwrite the node stored at address `a`. -/
def heapSet (h : List (Nat × NodeH)) (a : Nat) (n : NodeH) : List (Nat × NodeH) :=
  h.map (fun p => if p.1 == a then (a, n) else p)

/-- Model of `newSpanQueue` (mpsc.go lines 27-33): a dummy node (all words zero) at
address 0, with `head` and `tail` both pointing at it. -/
def newSpanQueueH : SpanQueueH :=
  { heap := [(0, ⟨none, none⟩)], head := 0, tail := 0, nextAlloc := 1 }

/-- One-or-more iterations of the retry loop of `spanQueue.enqueue`
(mpsc.go lines 38-46), executed sequentially, with fuel.  Faithful to the
source, the CAS target is the *value* of `tail.next`
(`(*unsafe.Pointer)(unsafe.Pointer(tail.next))`), not the address of the
`next` field: when `tail.next` is nil the CAS dereferences nil and the
goroutine panics; when it is non-nil the CAS operates on the first machine
word of the pointed-to node.  `none` = fuel exhausted. -/
def enqueueLoop : Nat → SpanQueueH → Nat → Option (Except GoPanic SpanQueueH)
  | 0, _, _ => none
  | fuel + 1, q, nodeAddr =>
    match heapGet q.heap q.tail with
    | none => some (Except.error GoPanic.nilDeref)
    | some tailNode =>
      match tailNode.next with
      | none =>
        -- tailNext == nil: atomic.CompareAndSwapPointer(nil, ...) faults
        some (Except.error GoPanic.nilDeref)
      | some a =>
        match heapGet q.heap a with
        | none => some (Except.error GoPanic.nilDeref)
        | some cell =>
          if cell.spanWord = none then
            -- CAS succeeds: the new node's address is written into the first
            -- word at `a`, then the tail CAS swings tail to the new node.
            some (Except.ok
              { q with
                heap := heapSet q.heap a { cell with spanWord := some nodeAddr },
                tail := nodeAddr })
          else
            -- CAS fails; q.tail.CompareAndSwap(tail, tail.next) then retry.
            enqueueLoop fuel { q with tail := a } nodeAddr

/-- Model of `spanQueue.enqueue` (mpsc.go lines 36-47): allocate the new node, then
run the retry loop. -/
def spanQueueEnqueue (fuel : Nat) (q : SpanQueueH) (s : Span) : Option (Except GoPanic SpanQueueH) :=
  let nodeAddr := q.nextAlloc
  enqueueLoop fuel
    { q with heap := (nodeAddr, ⟨some s, none⟩) :: q.heap, nextAlloc := q.nextAlloc + 1 }
    nodeAddr

/-! ## List-level model of `spanQueue.dequeue` and `BatchSpanProcessor`
(src/trace/mpsc.go lines 50-160)

For the consumer-side logic we view the linked list as the sequence of spans
held in the nodes reachable strictly after `head` (the dummy / last-consumed
node is not part of the sequence).  `dequeue` (lines 50-61) reads
`head.next`; if nil it returns `(nil, false)`, otherwise it swings `head`
forward and returns that node's span — on the list view: pop the front. -/

/-- Model of `spanQueue.dequeue` (mpsc.go lines 50-61) on the list view of the queue:
`(nil, false)` when `head.next` is nil, otherwise the front span and the
advanced queue. -/
def sqDequeue (q : List Span) : Option Span × List Span :=
  match q with
  | [] => (none, [])
  | x :: xs => (some x, xs)

/-- Model of `BatchSpanProcessor.collectBatch` (mpsc.go lines 145-155): repeatedly
`dequeue` until `ok` is false, appending each span to the batch.  Returns
the collected batch and the remaining queue. -/
def collectBatch (q : List Span) : List Span × List Span :=
  match q with
  | [] => ([], [])
  | x :: xs =>
    let r := collectBatch xs
    (x :: r.1, r.2)

/-- The mutable state of a `BatchSpanProcessor` (mpsc.go lines 63-70) that
the claims observe: the queue contents and whether `shutdownCh` has been
closed.  (`maxBatch` and the exporter are read-only configuration.) -/
structure BSPFull where
  queue : List Span
  shutdownClosed : Bool
deriving DecidableEq, Repr

/-- Model of `BatchSpanProcessor.ForceFlush` (mpsc.go lines 106-112): collect the
whole queue via `collectBatch`; if the batch is non-empty make one
`ExportSpans` call with it.  Returns the new state and the list of
`ExportSpans` calls made (each call is the batch passed to it).  The code
touches only the queue and the exporter — `shutdownCh` is left alone. -/
def bspForceFlushFull (st : BSPFull) : BSPFull × List (List Span) :=
  let r := collectBatch st.queue
  ({ st with queue := r.2 }, if 0 < r.1.length then [r.1] else [])

/-- Model of `BatchSpanProcessor.Shutdown` (mpsc.go lines 98-103): `close(bsp.shutdownCh)`
panics if the channel is already closed; otherwise the channel is closed,
`wg.Wait()` joins the worker and the exporter is shut down. -/
def bspShutdown (st : BSPFull) : Except GoPanic BSPFull :=
  if st.shutdownClosed then Except.error GoPanic.closeOfClosedChannel
  else Except.ok { st with shutdownClosed := true }

/-- Which `select` arm fires in one iteration of
`BatchSpanProcessor.processQueue` (mpsc.go lines 123-141): the shutdown
channel, the 200ms ticker, or the default (non-blocking dequeue poll). -/
inductive BSPEvent where
  | shutdown : BSPEvent
  | tick : BSPEvent
  | poll : BSPEvent
deriving DecidableEq, Repr

/-- The worker-local state of `processQueue`: the current batch and the
queue it drains. -/
structure BSPWorker where
  batch : List Span
  queue : List Span
deriving DecidableEq, Repr

/-- One iteration of the `processQueue` loop (mpsc.go lines 123-141) for a
given `select` outcome.  Returns the new worker state, the `ExportSpans`
calls made during the iteration, and whether the worker returned.
- `shutdown`: `return` — no drain, no export, batch and queue dropped.
- `tick`: if the batch is non-empty, export it and reset the batch.
- `poll`: `dequeue`; on success append to the batch and export exactly when
  `len(batch) >= maxBatch`. -/
def bspStep (maxBatch : Nat) (ev : BSPEvent) (w : BSPWorker) :
    BSPWorker × List (List Span) × Bool :=
  match ev with
  | BSPEvent.shutdown => (w, [], true)
  | BSPEvent.tick =>
    if 0 < w.batch.length then
      ({ batch := [], queue := w.queue }, [w.batch], false)
    else (w, [], false)
  | BSPEvent.poll =>
    match w.queue with
    | [] => (w, [], false)
    | x :: xs =>
      let batch := w.batch ++ [x]
      if maxBatch ≤ batch.length then
        ({ batch := [], queue := xs }, [batch], false)
      else
        ({ batch := batch, queue := xs }, [], false)

/-- Model of `BatchSpanProcessor.exportBatch` (mpsc.go lines 158-160): one
`ExportSpans` call whose error result is assigned to `_` — discarded, not
logged, not retried, not returned.  `err` is the exporter's error behaviour;
the result is the list of `ExportSpans` calls made and the number of log
events emitted. -/
def bspExportBatch (err : List Span → Bool) (batch : List Span) :
    List (List Span) × Nat :=
  ([batch], 0)

/-- Model of `MPSCSpanProcessor.export` (sprocessor/mpsc.go lines 156-161): one
`ExportSpans` call; if it returns an error, one line is printed
(`fmt.Println`); nothing is retried or propagated. -/
def mpscExport (err : List Span → Bool) (spans : List Span) :
    List (List Span) × Nat :=
  ([spans], if err spans then 1 else 0)

/-! ## `AnalyticsHandler` (src/trace/sprocessor/tyk_processor.go) -/

/-- The lifecycle state of an `AnalyticsHandler`: whether `recordsChan` is
closed, the `shouldStop` flag, and a generation counter that increments each
time `Start` spawns a fresh worker pool (so a restart is observable). -/
structure AHState where
  chClosed : Bool
  shouldStop : Bool
  generation : Nat
deriving DecidableEq, Repr

/-- Model of `AnalyticsHandler.Shutdown` (tyk_processor.go lines 59-71): set
`shouldStop`, then `close(r.recordsChan)` — which panics if the channel is
already closed — then wait for the workers. -/
def ahShutdown (st : AHState) : Except GoPanic AHState :=
  if st.chClosed then Except.error GoPanic.closeOfClosedChannel
  else Except.ok { st with shouldStop := true, chClosed := true }

/-- Model of `AnalyticsHandler.Start` (tyk_processor.go lines 49-56): make a fresh
`recordsChan`, clear `shouldStop`, spawn a new pool of workers. -/
def ahStart (st : AHState) : AHState :=
  { chClosed := false, shouldStop := false, generation := st.generation + 1 }

/-- Model of `AnalyticsHandler.ForceFlush` (tyk_processor.go lines 74-79): a full
`Shutdown` followed by `Start`. -/
def ahForceFlush (st : AHState) : Except GoPanic AHState :=
  (ahShutdown st).map ahStart

/-- What one iteration of `recordWorker` (tyk_processor.go lines 106-143)
observes from its `select`: a record received from the channel, the channel
found closed and drained (`ok == false`), or the 200ms flush timer firing. -/
inductive AHEvent where
  | recv : Span → AHEvent
  | closed : AHEvent
  | timerFire : AHEvent
deriving DecidableEq, Repr

/-- One iteration of the `recordWorker` loop (tyk_processor.go lines
106-143).  `bufSize` is `r.workerBufferSize`; `elapsed1s` is whether
`time.Since(lastSentTs) >= 1000ms` at the flush check.  Returns the new
buffer, the `ExportSpans` calls made, and whether the worker returned.
- channel closed: export whatever is in the buffer (unconditionally) and return;
- record received: append it; `readyToSend` iff the buffer reached `bufSize`;
- timer fired: `readyToSend := true`.
A flush happens iff `len(recordsBuffer) > 0 && (readyToSend || elapsed1s)`. -/
def ahWorkerStep (bufSize : Nat) (ev : AHEvent) (elapsed1s : Bool) (buf : List Span) :
    List Span × List (List Span) × Bool :=
  match ev with
  | AHEvent.closed => (buf, [buf], true)
  | AHEvent.recv s =>
    let buf := buf ++ [s]
    let readyToSend := buf.length == bufSize
    if 0 < buf.length ∧ (readyToSend || elapsed1s) = true then
      ([], [buf], false)
    else (buf, [], false)
  | AHEvent.timerFire =>
    if 0 < buf.length ∧ (true || elapsed1s) = true then
      ([], [buf], false)
    else (buf, [], false)

/-- The shutdown drain of `recordWorker`: once `recordsChan` is closed, each
buffered record is still received (`ok` is true until the channel is empty),
then the `ok == false` branch exports the remaining buffer and returns.
`es` supplies the `elapsed1s` value observed at each receive.  Returns every
`ExportSpans` call made until the worker returns. -/
def ahDrain (bufSize : Nat) : List Bool → List Span → List Span → List (List Span)
  | _, buf, [] => [buf]
  | es, buf, s :: rest =>
    let r := ahWorkerStep bufSize (AHEvent.recv s) (es.headD false) buf
    r.2.1 ++ ahDrain bufSize es.tail r.1 rest

/-! ## `MPSCQueue` and `MPSCSpanProcessor` (src/trace/sprocessor/mpsc.go)

Sequentially, `Enqueue` (lines 34-52) appends a node after `tail` and
increments the `int32` length counter; `Dequeue` (lines 55-78) pops the node
after `head` — and does not touch the counter.  The list view is the
sequence of spans in the nodes strictly after `head`; the counter is an
`int32`, so it wraps modulo 2^32. -/

/-- Model of `int32` wraparound on `Int`: the representative in
`[-2147483648, 2147483648)` (the literals are 2^31 and 2^32). -/
def wrap32 (n : Int) : Int := (n + 2147483648) % 4294967296 - 2147483648

/-- The `MPSCQueue` (sprocessor/mpsc.go lines 21-25) on its list view:
the spans after `head`, plus the `int32` `length` counter. -/
structure MPSCQueue where
  items : List Span
  length : Int
deriving DecidableEq, Repr

/-- Model of `NewMPSCQueue` (sprocessor/mpsc.go lines 28-31): dummy node only,
counter zero. -/
def newMPSCQueue : MPSCQueue := { items := [], length := 0 }

/-- Model of `MPSCQueue.Enqueue` (sprocessor/mpsc.go lines 34-52):
`atomic.AddInt32(&q.length, 1)` then link the new node after the tail. -/
def MPSCQueue.Enqueue (q : MPSCQueue) (s : Span) : MPSCQueue :=
  { items := q.items ++ [s], length := wrap32 (q.length + 1) }

/-- Model of `MPSCQueue.Dequeue` (sprocessor/mpsc.go lines 55-78): if `head == tail`
and `next == nil` return `(nil, false)`, else swing `head` forward and
return the payload.  The `length` counter is not decremented. -/
def MPSCQueue.Dequeue (q : MPSCQueue) : Option Span × MPSCQueue :=
  match q.items with
  | [] => (none, q)
  | x :: xs => (some x, { q with items := xs })

/-- Model of `MPSCQueue.Length` (sprocessor/mpsc.go lines 81-83). -/
def MPSCQueue.Length (q : MPSCQueue) : Int := q.length

/-- Model of `MPSCQueue.IsEmpty` (sprocessor/mpsc.go lines 86-88): the counter
compared with zero — not the list. -/
def MPSCQueue.IsEmpty (q : MPSCQueue) : Bool := q.length == 0

/-- Enqueue a whole list of spans, left to right. -/
def enqueueList (q : MPSCQueue) (l : List Span) : MPSCQueue :=
  l.foldl MPSCQueue.Enqueue q

/-- Dequeue repeatedly until `Dequeue` returns `(nil, false)`, collecting
the returned spans in order. -/
def dequeueAll : MPSCQueue → List Span
  | ⟨[], _⟩ => []
  | ⟨x :: xs, n⟩ => x :: dequeueAll ⟨xs, n⟩

/-- The shared drain loop of `MPSCSpanProcessor.exportBatch` (sprocessor/
mpsc.go lines 140-144) and `MPSCSpanProcessor.ForceFlush` (lines 172-176):
`for !q.IsEmpty() && len(buffer) < int(spansNeeded) { if span, ok :=
q.Dequeue(); ok { buffer = append(buffer, span) } }`, with fuel; `none`
means the fuel ran out (the loop did not terminate within `fuel` steps). -/
def ebLoop (sn : Int) : Nat → MPSCQueue → List Span → Option (MPSCQueue × List Span)
  | 0, _, _ => none
  | fuel + 1, q, buf =>
    if q.IsEmpty = false ∧ (buf.length : Int) < sn then
      match q.Dequeue with
      | (some s, q') => ebLoop sn fuel q' (buf ++ [s])
      | (none, q') => ebLoop sn fuel q' buf
    else some (q, buf)

/-- The observable outcome of one `MPSCSpanProcessor.exportBatch` call. -/
structure ExportBatchResult where
  /-- the queue after the drain loop. -/
  queue : MPSCQueue
  /-- the `ExportSpans` calls made. -/
  exported : List (List Span)
  /-- the value of `buffer` at the `IsEmpty`-guarded store (line 152),
  after the `buffer = buffer[:0]` reset when an export happened. -/
  bufAtStore : List Span
  /-- the value stored into `spansNeeded`, when the store executed. -/
  stored : Option Int
  /-- the final `spansNeeded`. -/
  spansNeeded : Int
deriving DecidableEq, Repr

/-- Model of `MPSCSpanProcessor.exportBatch` (sprocessor/mpsc.go lines 138-154):
drain loop; export iff `len(buffer) >= int(spansNeeded) || force` (then
truncate the buffer); if `q.IsEmpty()` store
`int32(waitTime - len(buffer))` into `spansNeeded`. -/
def exportBatchRun (wt sn : Int) (force : Bool) (fuel : Nat) (q : MPSCQueue) :
    Option ExportBatchResult :=
  match ebLoop sn fuel q [] with
  | none => none
  | some (q', buf) =>
    let r : List (List Span) × List Span :=
      if sn ≤ (buf.length : Int) ∨ force = true then ([buf], []) else ([], buf)
    if q'.IsEmpty then
      some ⟨q', r.1, r.2, some (wrap32 (wt - r.2.length)), wrap32 (wt - r.2.length)⟩
    else
      some ⟨q', r.1, r.2, none, sn⟩

/-- Model of `MPSCSpanProcessor.ForceFlush` (sprocessor/mpsc.go lines 169-182):
if the queue is not `IsEmpty`, run the same bounded drain loop and make one
`ExportSpans` call with the resulting buffer (unconditionally); otherwise
return with no export. -/
def mpscForceFlush (sn : Int) (fuel : Nat) (q : MPSCQueue) :
    Option (MPSCQueue × List (List Span)) :=
  if q.IsEmpty = false then
    match ebLoop sn fuel q [] with
    | none => none
    | some (q', buf) => some (q', [buf])
  else some (q, [])

/-! ## Helper lemmas -/

/-- The `collectBatch` loop collects the whole queue, in order. -/
theorem collectBatch_eq (q : List Span) : collectBatch q = (q, []) := by
  induction q with
  | nil => rfl
  | cons x xs ih => simp [collectBatch, ih]

/-- Draining by repeated `Dequeue` returns exactly the list contents. -/
theorem dequeueAll_items (q : MPSCQueue) : dequeueAll q = q.items := by
  obtain ⟨l, n⟩ := q
  induction l with
  | nil => simp [dequeueAll]
  | cons x xs ih => simpa [dequeueAll] using ih

/-- Enqueueing a list appends it to the node list. -/
theorem enqueueList_items (l : List Span) :
    ∀ q : MPSCQueue, (enqueueList q l).items = q.items ++ l := by
  induction l with
  | nil => intro q; simp [enqueueList]
  | cons x xs ih =>
    intro q
    show (enqueueList (q.Enqueue x) xs).items = _
    rw [ih]
    simp [MPSCQueue.Enqueue]

/-- Wraparound of a sum starting from an already-wrapped value. -/
theorem wrap32_fix (x y : Int) : wrap32 (wrap32 x + y) = wrap32 (x + y) := by
  unfold wrap32
  omega

/-- Wraparound is idempotent. -/
theorem wrap32_idem (x : Int) : wrap32 (wrap32 x) = wrap32 x := by
  have h := wrap32_fix x 0
  simpa using h

/-- Values already in `int32` range are fixed by wraparound. -/
theorem wrap32_small (x : Int) (h1 : -(2 ^ 31) ≤ x) (h2 : x < 2 ^ 31) : wrap32 x = x := by
  unfold wrap32
  have e1 : (2 : Int) ^ 31 = 2147483648 := by norm_num
  rw [e1] at h1 h2
  omega

/-- Below the wrap boundary, a positive count wraps to a non-zero value. -/
theorem wrap32_ne_zero (x : Int) (h1 : 0 < x) (h2 : x < 2 ^ 32) : wrap32 x ≠ 0 := by
  unfold wrap32
  have e2 : (2 : Int) ^ 32 = 4294967296 := by norm_num
  rw [e2] at h2
  omega

/-- Exactly at the wrap boundary the counter reads zero again. -/
theorem wrap32_pow : wrap32 (2 ^ 32) = 0 := by
  unfold wrap32
  have e2 : (2 : Int) ^ 32 = 4294967296 := by norm_num
  rw [e2]
  omega

/-- Unfolding lemma for `Length` (stated to allow purely syntactic rewriting). -/
theorem MPSCQueue.Length_eq (q : MPSCQueue) : q.Length = q.length := rfl

/-- Unfolding lemma for `IsEmpty` (stated to allow purely syntactic rewriting). -/
theorem MPSCQueue.IsEmpty_eq (q : MPSCQueue) : q.IsEmpty = (q.length == 0) := rfl

/-- The counter after enqueueing a list is the wrapped total count. -/
theorem enqueueList_length (l : List Span) :
    ∀ q : MPSCQueue, wrap32 q.length = q.length →
      (enqueueList q l).length = wrap32 (q.length + l.length) := by
  induction l with
  | nil =>
    intro q hq
    simpa [enqueueList] using hq.symm
  | cons x xs ih =>
    intro q hq
    show (enqueueList (q.Enqueue x) xs).length = _
    rw [ih (q.Enqueue x) (by simp [MPSCQueue.Enqueue, wrap32_idem])]
    simp only [MPSCQueue.Enqueue, wrap32_fix]
    congr 1
    simp only [List.length_cons]
    push_cast
    ring

/-- Invariants of a terminating run of the shared drain loop: the counter is
untouched; with a zero counter the loop is the identity; the buffer either
stays below the threshold or is returned unchanged. -/
theorem ebLoop_some (sn : Int) :
    ∀ (fuel : Nat) (q : MPSCQueue) (buf : List Span) (q' : MPSCQueue) (buf' : List Span),
      ebLoop sn fuel q buf = some (q', buf') →
      q'.length = q.length ∧ (q.length = 0 → q' = q ∧ buf' = buf) ∧
        ((buf'.length : Int) ≤ sn ∨ buf' = buf) := by
  intro fuel
  induction fuel with
  | zero =>
    intro q buf q' buf' h
    simp [ebLoop] at h
  | succ k ih =>
    intro q buf q' buf' h
    rw [ebLoop] at h
    split at h
    case isTrue hc =>
      obtain ⟨l, n⟩ := q
      cases l with
      | nil =>
        simp only [MPSCQueue.Dequeue] at h
        obtain ⟨h1, h2, h3⟩ := ih ⟨[], n⟩ buf q' buf' h
        refine ⟨h1, ?_, h3⟩
        intro h0
        simp only [MPSCQueue.IsEmpty] at hc
        simp only at h0
        rw [h0] at hc
        simp at hc
      | cons x xs =>
        simp only [MPSCQueue.Dequeue] at h
        obtain ⟨h1, _, h3⟩ := ih ⟨xs, n⟩ (buf ++ [x]) q' buf' h
        refine ⟨h1, ?_, ?_⟩
        · intro h0
          simp only [MPSCQueue.IsEmpty] at hc
          simp only at h0
          rw [h0] at hc
          simp at hc
        · rcases h3 with h3 | h3
          · exact Or.inl h3
          · left
            rw [h3]
            have hlt := hc.2
            simp only [List.length_append, List.length_cons, List.length_nil]
            push_cast
            push_cast at hlt
            omega
    case isFalse hc =>
      obtain ⟨he1, he2⟩ := Prod.mk.injEq .. ▸ (Option.some.injEq .. ▸ h)
      subst he1
      subst he2
      exact ⟨rfl, fun _ => ⟨rfl, rfl⟩, Or.inr rfl⟩

/-- From a state whose linked list is empty but whose counter is non-zero,
the drain loop never terminates while the buffer is below the threshold:
every amount of fuel is exhausted. -/
theorem ebLoop_none (sn : Int) (n : Int) (hn : n ≠ 0) :
    ∀ (fuel : Nat) (buf : List Span), (buf.length : Int) < sn →
      ebLoop sn fuel ⟨[], n⟩ buf = none := by
  intro fuel
  induction fuel with
  | zero => intro buf _; rfl
  | succ k ih =>
    intro buf hb
    rw [ebLoop]
    rw [if_pos ?_]
    · simp only [MPSCQueue.Dequeue]
      exact ih buf hb
    · refine ⟨?_, hb⟩
      simp [MPSCQueue.IsEmpty, hn]

/-- One receive step of the analytics worker conserves spans: the flushed
batches followed by the remaining buffer hold exactly the old buffer plus
the received span. -/
theorem ahWorkerStep_recv_spec (bs : Nat) (s : Span) (e : Bool) (buf : List Span) :
    (ahWorkerStep bs (AHEvent.recv s) e buf).2.1.flatten ++
      (ahWorkerStep bs (AHEvent.recv s) e buf).1 = buf ++ [s] := by
  simp only [ahWorkerStep]
  split
  · simp
  · simp

/-- The shutdown drain of the analytics worker exports exactly the partial
buffer followed by everything still buffered in the channel. -/
theorem ahDrain_flatten (bs : Nat) :
    ∀ (chan : List Span) (es : List Bool) (buf : List Span),
      (ahDrain bs es buf chan).flatten = buf ++ chan := by
  intro chan
  induction chan with
  | nil => intro es buf; simp [ahDrain]
  | cons s rest ih =>
    intro es buf
    simp only [ahDrain, List.flatten_append]
    rw [ih]
    rw [← List.append_assoc, ahWorkerStep_recv_spec]
    simp

/-- Whenever the `IsEmpty`-guarded store at the end of `exportBatch`
executes, the residual buffer is empty and the stored threshold is exactly
the wrapped `waitTime`. -/
theorem exportBatchRun_stored (wt sn : Int) (force : Bool) (fuel : Nat) (q : MPSCQueue)
    (res : ExportBatchResult) (h : exportBatchRun wt sn force fuel q = some res) :
    res.stored = none ∨ (res.bufAtStore = [] ∧ res.stored = some (wrap32 wt)) := by
  unfold exportBatchRun at h
  cases heb : ebLoop sn fuel q [] with
  | none => rw [heb] at h; exact absurd h (by simp)
  | some p =>
    obtain ⟨q', buf⟩ := p
    rw [heb] at h
    simp only at h
    by_cases he : q'.IsEmpty
    · have hspec := ebLoop_some sn fuel q [] q' buf heb
      have hq'0 : q'.length = 0 := by simpa [MPSCQueue.IsEmpty] using he
      have hq0 : q.length = 0 := by rw [← hspec.1]; exact hq'0
      have hbuf : buf = [] := (hspec.2.1 hq0).2
      rw [if_pos he] at h
      subst hbuf
      right
      by_cases hcond : sn ≤ ((([] : List Span).length : Nat) : Int) ∨ force = true
      · rw [if_pos hcond] at h
        obtain rfl := Option.some.injEq .. ▸ h
        simp
      · rw [if_neg hcond] at h
        obtain rfl := Option.some.injEq .. ▸ h
        simp
    · rw [if_neg he] at h
      obtain rfl := Option.some.injEq .. ▸ h
      left
      rfl

/-! ## Claim theorems -/

/-- C1: the spec claims `OnEnd` (a `spanQueue.enqueue`) never blocks and
never panics, with no failure mode but out-of-memory.  On the code, the CAS
target of `enqueue` is the *value* of `tail.next` — nil on the fresh queue
built by `newSpanQueue` — instead of the address of the `next` field, so the
very first enqueue dereferences nil and panics, for every span and every
amount of fuel given to the retry loop. -/
theorem c1_spanQueue_enqueue_panics (s : Span) (fuel : Nat) :
    spanQueueEnqueue (fuel + 1) newSpanQueueH s =
      some (Except.error GoPanic.nilDeref) := rfl

/-- C2 counterexample: calling `Shutdown` twice is not safe.  From the
initial state, a second `BatchSpanProcessor.Shutdown` and a second
`AnalyticsHandler.Shutdown` both close an already-closed channel and
panic instead of returning as a no-op. -/
theorem c2_counterexample :
    (bspShutdown ⟨[], false⟩).bind bspShutdown =
      Except.error GoPanic.closeOfClosedChannel ∧
    (ahShutdown ⟨false, false, 0⟩).bind ahShutdown =
      Except.error GoPanic.closeOfClosedChannel := ⟨rfl, rfl⟩

/-- C2 amended: only the first `Shutdown` is safe; in both the
`BatchSpanProcessor` and the `AnalyticsHandler` a second `Shutdown` closes
the already-closed shutdown/records channel and panics — shutdown is not
idempotent. -/
theorem c2_shutdown_twice_panics :
    (∀ q : List Span,
      bspShutdown ⟨q, false⟩ = Except.ok ⟨q, true⟩ ∧
      bspShutdown ⟨q, true⟩ = Except.error GoPanic.closeOfClosedChannel) ∧
    (∀ (ss : Bool) (g : Nat),
      ahShutdown ⟨false, ss, g⟩ = Except.ok ⟨true, true, g⟩ ∧
      ahShutdown ⟨true, ss, g⟩ = Except.error GoPanic.closeOfClosedChannel) :=
  ⟨fun _ => ⟨rfl, rfl⟩, fun _ _ => ⟨rfl, rfl⟩⟩

/-- C3 counterexample: on the shutdown signal the `BatchSpanProcessor`
worker returns at once with no `ExportSpans` call, although its current
batch and its queue are both non-empty — those spans are discarded, not
exported. -/
theorem c3_counterexample :
    bspStep 512 BSPEvent.shutdown ⟨[0], [1]⟩ = (⟨[0], [1]⟩, [], true) ∧
    ([0] : List Span) ≠ [] ∧ ([1] : List Span) ≠ [] :=
  ⟨rfl, by decide, by decide⟩

/-- C3 amended: the final drain-and-export pass exists only in the
analytics worker — on channel close it receives every span still buffered
in the channel and exports all of them together with its partial buffer
before returning — while the `BatchSpanProcessor` worker returns
immediately on the shutdown signal, exporting nothing and dropping the
current batch and the queue. -/
theorem c3_shutdown_drain_amended :
    (∀ (maxBatch : Nat) (w : BSPWorker),
      bspStep maxBatch BSPEvent.shutdown w = (w, [], true)) ∧
    (∀ (bufSize : Nat) (es : List Bool) (buf chan : List Span),
      (ahDrain bufSize es buf chan).flatten = buf ++ chan) :=
  ⟨fun _ _ => rfl, fun bs es buf chan => ahDrain_flatten bs chan es buf⟩

/-- C4 counterexample: with a configured maximum batch size of 1,
`BatchSpanProcessor.ForceFlush` on a queue of two spans passes a single
batch of length 2 to `ExportSpans` — the bound is exceeded (the collect
loop of `ForceFlush` ignores `maxBatch`, which is not even an argument of
`bspForceFlushFull`). -/
theorem c4_counterexample :
    (bspForceFlushFull ⟨[0, 1], false⟩).2 = [[0, 1]] ∧
    (∀ b ∈ (bspForceFlushFull ⟨[0, 1], false⟩).2, 1 < b.length) := by decide

/-- C4 amended: batches exported by the worker loop never exceed the
configured maximum (for a positive maximum, the loop keeps its batch
strictly below the maximum between iterations and every emitted batch has
length at most the maximum), but `ForceFlush` exports the entire queue
contents as one batch, unbounded by the configured maximum. -/
theorem c4_batch_bound_amended :
    (∀ (mb : Nat) (ev : BSPEvent) (w : BSPWorker), 1 ≤ mb → w.batch.length < mb →
      (∀ b ∈ (bspStep mb ev w).2.1, b.length ≤ mb) ∧
        (bspStep mb ev w).1.batch.length < mb) ∧
    (∀ st : BSPFull,
      (bspForceFlushFull st).2 = if st.queue = [] then [] else [st.queue]) := by
  constructor
  · intro mb ev w h1 hw
    cases ev with
    | shutdown => exact ⟨by simp [bspStep], by simpa [bspStep] using hw⟩
    | tick =>
      by_cases hb : 0 < w.batch.length
      · constructor
        · intro b hbm
          simp only [bspStep, if_pos hb, List.mem_singleton] at hbm
          subst hbm
          omega
        · simpa [bspStep, hb] using h1
      · constructor
        · intro b hbm
          simp [bspStep, hb] at hbm
        · simpa [bspStep, hb] using hw
    | poll =>
      obtain ⟨batch, queue⟩ := w
      simp only at hw
      cases queue with
      | nil => exact ⟨by simp [bspStep], by simpa [bspStep] using hw⟩
      | cons x xs =>
        simp only [bspStep, List.length_append, List.length_cons, List.length_nil,
          Nat.zero_add]
        by_cases hmb : mb ≤ batch.length + 1
        · rw [if_pos hmb]
          constructor
          · intro b hbm
            simp only [List.mem_singleton] at hbm
            subst hbm
            simp only [List.length_append, List.length_cons, List.length_nil]
            omega
          · simpa using h1
        · rw [if_neg hmb]
          constructor
          · intro b hbm
            simp at hbm
          · simp only [List.length_append, List.length_cons, List.length_nil]
            omega
  · intro st
    simp only [bspForceFlushFull, collectBatch_eq]
    cases st.queue <;> simp

/-- C4 witness: the worker-loop bound applied at maximum 1 with an empty
batch and a single queued span. -/
theorem c4_witness :
    (∀ b ∈ (bspStep 1 BSPEvent.poll ⟨[], [7]⟩).2.1, b.length ≤ 1) ∧
      (bspStep 1 BSPEvent.poll ⟨[], [7]⟩).1.batch.length < 1 :=
  c4_batch_bound_amended.1 1 BSPEvent.poll ⟨[], [7]⟩ (by decide) (by decide)

/-- C5: the queues are FIFO with the documented dequeue contract: enqueueing
any list of spans into a fresh `MPSCQueue` and then dequeueing until failure
returns exactly that list in order; `Dequeue` returns `(nil, false)` exactly
when the node list is empty; and `spanQueue.dequeue` pops the front span or
reports empty. -/
theorem c5_fifo_dequeue_contract :
    (∀ l : List Span, dequeueAll (enqueueList newMPSCQueue l) = l) ∧
    (∀ q : MPSCQueue, (MPSCQueue.Dequeue q).1 = none ↔ q.items = []) ∧
    (∀ (x : Span) (xs : List Span), sqDequeue (x :: xs) = (some x, xs)) ∧
    (sqDequeue []).1 = none := by
  refine ⟨?_, ?_, fun _ _ => rfl, rfl⟩
  · intro l
    rw [dequeueAll_items, enqueueList_items]
    simp [newMPSCQueue]
  · intro q
    obtain ⟨l, n⟩ := q
    cases l <;> simp [MPSCQueue.Dequeue]

/-- C6 counterexample: `MPSCSpanProcessor.ForceFlush`, on a reachable state
holding two spans with `spansNeeded = 1`, exports only one span and leaves
the other queued — it does not drain everything currently queued. -/
theorem c6_counterexample :
    mpscForceFlush 1 50 (enqueueList newMPSCQueue [10, 20]) =
      some (⟨[20], 2⟩, [[10]]) ∧ ([20] : List Span) ≠ [] := by decide

/-- C6 amended: `BatchSpanProcessor.ForceFlush` drains the whole queue into
at most one `ExportSpans` call and leaves the shutdown state untouched; the
`MPSCSpanProcessor` variant makes at most one `ExportSpans` call per
`ForceFlush` but drains at most `spansNeeded` spans, not everything; and
`AnalyticsHandler.ForceFlush` is a full `Shutdown` followed by `Start` — it
stops and restarts the whole worker pool, a lifecycle transition. -/
theorem c6_forceflush_amended :
    (∀ st : BSPFull,
      (bspForceFlushFull st).1 = ⟨[], st.shutdownClosed⟩ ∧
      (bspForceFlushFull st).2.length ≤ 1 ∧
      (bspForceFlushFull st).2.flatten = st.queue) ∧
    (∀ (sn : Int) (fuel : Nat) (q q' : MPSCQueue) (outs : List (List Span)),
      mpscForceFlush sn fuel q = some (q', outs) →
      outs.length ≤ 1 ∧ ∀ b ∈ outs, (b.length : Int) ≤ max sn 0) ∧
    (∀ (ss : Bool) (g : Nat),
      ahForceFlush ⟨false, ss, g⟩ = Except.ok ⟨false, false, g + 1⟩) := by
  refine ⟨?_, ?_, fun _ _ => rfl⟩
  · intro st
    refine ⟨?_, ?_, ?_⟩
    · simp only [bspForceFlushFull, collectBatch_eq]
    · simp only [bspForceFlushFull, collectBatch_eq]
      split <;> simp
    · simp only [bspForceFlushFull, collectBatch_eq]
      split
      case isTrue h => simp
      case isFalse h =>
        have h0 : st.queue.length = 0 := by omega
        simpa using (List.eq_nil_of_length_eq_zero h0).symm
  · intro sn fuel q q' outs h
    unfold mpscForceFlush at h
    split at h
    case isTrue =>
      cases heb : ebLoop sn fuel q [] with
      | none => rw [heb] at h; exact absurd h (by simp)
      | some p =>
        obtain ⟨q2, buf⟩ := p
        rw [heb] at h
        simp only [Option.some.injEq, Prod.mk.injEq] at h
        obtain ⟨rfl, rfl⟩ := h
        refine ⟨by simp, ?_⟩
        intro b hb
        simp only [List.mem_singleton] at hb
        subst hb
        rcases (ebLoop_some sn fuel q [] q2 b heb).2.2 with hle | hnil
        · have : (0 : Int) ≤ max sn 0 := le_max_right _ _
          have : sn ≤ max sn 0 := le_max_left _ _
          omega
        · simp [hnil]
    case isFalse =>
      simp only [Option.some.injEq, Prod.mk.injEq] at h
      obtain ⟨rfl, rfl⟩ := h
      exact ⟨by simp, by simp⟩

/-- C6 witness: the `MPSCSpanProcessor.ForceFlush` bound applied at
`spansNeeded = 1` on a queue holding two spans. -/
theorem c6_witness :
    ([[10]] : List (List Span)).length ≤ 1 ∧
      ∀ b ∈ ([[10]] : List (List Span)), (b.length : Int) ≤ max 1 0 :=
  c6_forceflush_amended.2.1 1 5 ⟨[10, 20], 2⟩ ⟨[20], 2⟩ [[10]] (by decide)

/-- C7 counterexample: with an exporter that fails on every call, the
export made by the `BatchSpanProcessor` worker loop emits zero log events —
the error is silently discarded, not logged (the worker-pool variant does
print one line). -/
theorem c7_counterexample :
    (fun _ => true : List Span → Bool) [0] = true ∧
    (bspExportBatch (fun _ => true) [0]).2 = 0 ∧
    (mpscExport (fun _ => true) [0]).2 = 1 := ⟨rfl, rfl, rfl⟩

/-- C7 amended: an export error is never retried and never propagated —
each worker-loop export is exactly one `ExportSpans` call whose result is
dropped, and the worker loop only terminates on the shutdown signal, never
because of an export result; the worker-pool variant logs one line per
failed export while the `BatchSpanProcessor` discards the error without
logging. -/
theorem c7_export_error_amended :
    (∀ (err : List Span → Bool) (batch : List Span),
      bspExportBatch err batch = ([batch], 0)) ∧
    (∀ (err : List Span → Bool) (spans : List Span),
      mpscExport err spans = ([spans], if err spans then 1 else 0)) ∧
    (∀ (mb : Nat) (w : BSPWorker),
      (bspStep mb BSPEvent.tick w).2.2 = false ∧
      (bspStep mb BSPEvent.poll w).2.2 = false) := by
  refine ⟨fun _ _ => rfl, fun _ _ => rfl, fun mb w => ⟨?_, ?_⟩⟩
  · simp only [bspStep]
    split <;> rfl
  · obtain ⟨batch, queue⟩ := w
    cases queue with
    | nil => rfl
    | cons x xs =>
      simp only [bspStep]
      split <;> rfl

/-- C8 counterexample: the analytics worker flushes on a third trigger the
claim excludes: receiving a record (not a timer fire) while the buffer
(length 2) is far below the size threshold (250), merely because at least
one second has elapsed since the last send. -/
theorem c8_counterexample :
    ahWorkerStep 250 (AHEvent.recv 1) true [0] = ([], [[0, 1]], false) ∧
    ([0, 1] : List Span).length ≠ 250 := by decide

/-- C8 amended: the `BatchSpanProcessor` worker exports exactly on the two
stated triggers (ticker fire with a non-empty batch, or a dequeue that
brings the batch up to the maximum), and a tick with an empty batch is a
no-op; the analytics worker additionally flushes when a record arrives and
at least one second has elapsed since the last send, besides its size
trigger, its timer trigger, and the unconditional flush on channel close —
a timer fire with an empty buffer is a no-op there too. -/
theorem c8_flush_trigger_amended :
    (∀ (mb : Nat) (ev : BSPEvent) (w : BSPWorker),
      (bspStep mb ev w).2.1 ≠ [] ↔
        ((ev = BSPEvent.tick ∧ w.batch ≠ []) ∨
         (ev = BSPEvent.poll ∧ w.queue ≠ [] ∧ mb ≤ w.batch.length + 1))) ∧
    (∀ (bs : Nat) (ev : AHEvent) (e : Bool) (buf : List Span),
      (ahWorkerStep bs ev e buf).2.1 ≠ [] ↔
        (ev = AHEvent.closed ∨
         (∃ s, ev = AHEvent.recv s ∧ (buf.length + 1 = bs ∨ e = true)) ∨
         (ev = AHEvent.timerFire ∧ buf ≠ []))) ∧
    (∀ (bs : Nat) (e : Bool), ahWorkerStep bs AHEvent.timerFire e [] = ([], [], false)) ∧
    (∀ (mb : Nat) (q : List Span), bspStep mb BSPEvent.tick ⟨[], q⟩ = (⟨[], q⟩, [], false)) := by
  refine ⟨?_, ?_, fun bs e => rfl, fun mb q => rfl⟩
  · intro mb ev w
    obtain ⟨batch, queue⟩ := w
    cases ev with
    | shutdown => simp [bspStep]
    | tick =>
      simp only [bspStep]
      by_cases hb : 0 < batch.length
      · rw [if_pos hb]
        have hne : batch ≠ [] := by
          intro h
          rw [h] at hb
          simp at hb
        simp [hne]
      · rw [if_neg hb]
        have hbe : batch = [] := by
          cases batch with
          | nil => rfl
          | cons a l => exact absurd (by simp) hb
        simp [hbe]
    | poll =>
      cases queue with
      | nil => simp [bspStep]
      | cons x xs =>
        simp only [bspStep, List.length_append, List.length_singleton]
        by_cases hmb : mb ≤ batch.length + 1
        · rw [if_pos hmb]
          simp [hmb]
        · rw [if_neg hmb]
          simp [hmb]
  · intro bs ev e buf
    cases ev with
    | closed => simp [ahWorkerStep]
    | recv s =>
      simp only [ahWorkerStep]
      by_cases hc : 0 < (buf ++ [s]).length ∧
          (((buf ++ [s]).length == bs) || e) = true
      · rw [if_pos hc]
        obtain ⟨-, hor⟩ := hc
        simp only [Bool.or_eq_true, beq_iff_eq, List.length_append,
          List.length_singleton] at hor
        constructor
        · intro _
          exact Or.inr (Or.inl ⟨s, rfl, hor⟩)
        · intro _
          simp
      · rw [if_neg hc]
        have hc' : ¬(buf.length + 1 = bs ∨ e = true) := by
          intro hor
          apply hc
          refine ⟨by simp, ?_⟩
          simp only [Bool.or_eq_true, beq_iff_eq, List.length_append,
            List.length_singleton]
          exact hor
        constructor
        · intro h
          exact absurd rfl h
        · rintro (h | ⟨s', -, hor⟩ | ⟨h, -⟩)
          · exact AHEvent.noConfusion h
          · exact absurd hor hc'
          · exact AHEvent.noConfusion h
    | timerFire =>
      simp only [ahWorkerStep]
      by_cases hb : 0 < buf.length ∧ (true || e) = true
      · rw [if_pos hb]
        have hne : buf ≠ [] := by
          intro h
          rw [h] at hb
          simp at hb
        simp [hne]
      · rw [if_neg hb]
        have hbe : buf = [] := by
          by_contra h
          exact hb ⟨List.length_pos.mpr h, by simp⟩
        simp [hbe]

/-- C9 counterexample: the adaptive-threshold store never fires under
bursty drain — there is no run of `exportBatch` (over any waitTime, any
threshold, any force flag, any queue state, any fuel) that stores a
negative threshold while the residual buffer is non-empty and longer than
the waitTime, because the `IsEmpty` guard of the store (whose counter the
drain loop never changes) can only be true when the loop collected nothing. -/
theorem c9_counterexample :
    ¬ ∃ (wt sn : Int) (force : Bool) (fuel : Nat) (q : MPSCQueue)
        (res : ExportBatchResult) (v : Int),
        exportBatchRun wt sn force fuel q = some res ∧
        res.bufAtStore ≠ [] ∧ wt < (res.bufAtStore.length : Int) ∧
        res.stored = some v ∧ v < 0 := by
  rintro ⟨wt, sn, force, fuel, q, res, v, h, hne, _, hst, _⟩
  rcases exportBatchRun_stored wt sn force fuel q res h with h0 | ⟨hb, _⟩
  · rw [h0] at hst
    exact Option.noConfusion hst
  · exact hne hb

/-- C9 amended: whenever the `IsEmpty`-guarded threshold update of
`exportBatch` executes, the residual buffer is empty and the value stored
is exactly the wrapped `waitTime`; for any `waitTime` that is a
non-negative `int32` value the stored threshold equals `waitTime` and is
never negative — the formula cannot be driven negative by bursty drain
(only a nonsensical negative configured `waitTime` could store a negative
value). -/
theorem c9_threshold_amended :
    (∀ (wt sn : Int) (force : Bool) (fuel : Nat) (q : MPSCQueue)
        (res : ExportBatchResult),
      exportBatchRun wt sn force fuel q = some res →
      res.stored = none ∨ (res.bufAtStore = [] ∧ res.stored = some (wrap32 wt))) ∧
    (∀ wt : Int, 0 ≤ wt → wt < 2 ^ 31 → wrap32 wt = wt) := by
  refine ⟨exportBatchRun_stored, fun wt h1 h2 => wrap32_small wt ?_ h2⟩
  have : (0 : Int) ≤ 2 ^ 31 := by norm_num
  omega

/-- C9 witness: a run of `exportBatch` on the fresh queue with
`waitTime = 5` in which the store executes; the characterization and the
range fact applied there. -/
theorem c9_witness :
    ((⟨newMPSCQueue, [], [], some 5, 5⟩ : ExportBatchResult).stored = none ∨
      ((⟨newMPSCQueue, [], [], some 5, 5⟩ : ExportBatchResult).bufAtStore = [] ∧
       (⟨newMPSCQueue, [], [], some 5, 5⟩ : ExportBatchResult).stored =
         some (wrap32 5))) ∧
    wrap32 5 = 5 :=
  ⟨c9_threshold_amended.1 5 3 false 1 newMPSCQueue
      ⟨newMPSCQueue, [], [], some 5, 5⟩ (by decide),
   c9_threshold_amended.2 5 (by norm_num) (by norm_num)⟩

/-- C10 counterexample: after exactly 2 ^ 32 enqueues the `int32` length
counter has wrapped to 0, so `Length` no longer equals the total number of
`Enqueue` calls and `IsEmpty` returns true again although spans were
enqueued — "false forever" fails at the wrap boundary. -/
theorem c10_counterexample :
    (enqueueList newMPSCQueue (List.replicate (2 ^ 32) 0)).Length = 0 ∧
    (enqueueList newMPSCQueue (List.replicate (2 ^ 32) 0)).IsEmpty = true ∧
    (2 ^ 32 : Nat) ≠ 0 := by
  have hlen : (enqueueList newMPSCQueue (List.replicate (2 ^ 32) (0 : Span))).length = 0 := by
    rw [enqueueList_length _ newMPSCQueue (by decide)]
    simp only [newMPSCQueue, List.length_replicate, zero_add]
    push_cast
    exact wrap32_pow
  refine ⟨?_, ?_, by norm_num⟩
  · rw [MPSCQueue.Length_eq, hlen]
  · rw [MPSCQueue.IsEmpty_eq, hlen]
    rfl

/-- C10 amended: the length counter equals the total number of `Enqueue`
calls modulo `int32` wraparound, never the number of elements currently
held — `Dequeue` does not decrement it — so once any span has been enqueued
`IsEmpty` returns false until the counter wraps at 2 ^ 32 enqueues, and the
drain loops of `exportBatch` and `ForceFlush` fail to terminate (exhaust
any fuel) from every state whose linked list is empty while the counter is
non-zero and the buffer is below the `spansNeeded` threshold. -/
theorem c10_counter_amended :
    (∀ l : List Span, (enqueueList newMPSCQueue l).Length = wrap32 l.length) ∧
    (∀ q : MPSCQueue, ((MPSCQueue.Dequeue q).2).Length = q.Length) ∧
    (∀ l : List Span, l ≠ [] → l.length < 2 ^ 32 →
      (enqueueList newMPSCQueue l).IsEmpty = false) ∧
    (∀ (sn : Int) (fuel : Nat) (n : Int) (buf : List Span),
      n ≠ 0 → (buf.length : Int) < sn →
      ebLoop sn fuel ⟨[], n⟩ buf = none) := by
  have hlen : ∀ l : List Span,
      (enqueueList newMPSCQueue l).length = wrap32 l.length := by
    intro l
    rw [enqueueList_length l newMPSCQueue (by decide)]
    simp [newMPSCQueue]
  refine ⟨fun l => hlen l, ?_, ?_, ?_⟩
  · intro q
    obtain ⟨l, n⟩ := q
    cases l <;> rfl
  · intro l hne hlt
    have h0 : 0 < l.length := List.length_pos.mpr hne
    have hz := wrap32_ne_zero (l.length : Int) (by exact_mod_cast h0)
      (by exact_mod_cast hlt)
    simp only [MPSCQueue.IsEmpty, hlen l]
    simpa using hz
  · intro sn fuel n buf hn hb
    exact ebLoop_none sn n hn fuel buf hb

/-- C10 witness: the divergence fact applied at the reachable state reached
by one enqueue followed by one dequeue (empty list, counter 1), and the
`IsEmpty` fact applied after a single enqueue. -/
theorem c10_witness :
    ebLoop 1 3 ⟨[], 1⟩ [] = none ∧
    (enqueueList newMPSCQueue [0]).IsEmpty = false :=
  ⟨c10_counter_amended.2.2.2 1 3 1 [] (by decide) (by decide),
   c10_counter_amended.2.2.1 [0] (by decide) (by norm_num)⟩

end TykOtel
